import Mathlib

/-!
Verification of the orientation engine of `aphrodite-d3`
(`src/utils/viewFrame.ts`), shallowly embedded in Lean 4.

JS numbers are modelled as rationals (`ℚ`), JS `Map`s as association lists
with insert-or-overwrite semantics, JS `Set<string>` as a list of strings
with membership-based insertion, and `undefined`/`null` as `Option.none`.
Helpers imported from `@gaia-tools/aphrodite-shared/orientation`
(not part of this repository's sources) are modelled from the spec and
marked as such in their doc comments.
-/

set_option linter.unusedVariables false

unseal Rat.mul Rat.add Rat.sub Rat.inv

namespace ViewFrameSpec

/-- Modelled from the spec: `normalizeDeg` from
`@gaia-tools/aphrodite-shared/orientation` — "reduces any real degree value
into range [0,360) via modulo, handling negative inputs". -/
def normalizeDeg (x : ℚ) : ℚ :=
  x - 360 * ⌊x / 360⌋

/-- `normalizeDeg` agrees with `360 *` the fractional part of `x / 360`. -/
theorem normalizeDeg_eq_fract (x : ℚ) :
    normalizeDeg x = 360 * Int.fract (x / 360) := by
  unfold normalizeDeg Int.fract
  ring

theorem normalizeDeg_nonneg (x : ℚ) : 0 ≤ normalizeDeg x := by
  rw [normalizeDeg_eq_fract]
  have := Int.fract_nonneg (x / 360)
  linarith

theorem normalizeDeg_lt_360 (x : ℚ) : normalizeDeg x < 360 := by
  rw [normalizeDeg_eq_fract]
  have := Int.fract_lt_one (x / 360)
  linarith

/-- The orb test of `planetCrossesAngle` is insensitive to the sign of the
longitude difference. -/
theorem min_normalizeDeg_neg (x : ℚ) :
    min (normalizeDeg (-x)) (360 - normalizeDeg (-x))
      = min (normalizeDeg x) (360 - normalizeDeg x) := by
  by_cases h : Int.fract (x / 360) = 0
  · have hneg : Int.fract (-x / 360) = 0 := by
      rw [neg_div, Int.fract_neg_eq_zero]
      exact h
    rw [normalizeDeg_eq_fract, normalizeDeg_eq_fract, neg_div, Int.fract_neg_eq_zero.mpr h, h]
  · have hneg : Int.fract (-(x / 360)) = 1 - Int.fract (x / 360) := Int.fract_neg h
    rw [normalizeDeg_eq_fract, normalizeDeg_eq_fract, neg_div, hneg]
    rw [show (360 : ℚ) * (1 - Int.fract (x / 360)) = 360 - 360 * Int.fract (x / 360) by ring]
    rw [show (360 : ℚ) - (360 - 360 * Int.fract (x / 360)) = 360 * Int.fract (x / 360) by ring]
    exact min_comm _ _

/-! ### Decimal rendering of naturals (JS `Number.prototype.toString`)

The runtime-state keys are JS template strings `` `${subject}:${house}` ``.
We model the implicit number-to-string conversion with an explicit
fuel-based decimal renderer (structural, so the kernel can evaluate it). -/

/-- The decimal digit characters used by JS number-to-string conversion. -/
def digitChar10 : Nat → Char
  | 0 => '0'
  | 1 => '1'
  | 2 => '2'
  | 3 => '3'
  | 4 => '4'
  | 5 => '5'
  | 6 => '6'
  | 7 => '7'
  | 8 => '8'
  | 9 => '9'
  | _ + 10 => '*'

theorem digitChar10_ne_colon (n : Nat) : digitChar10 n ≠ ':' := by
  unfold digitChar10
  split <;> decide

def digitVal (c : Char) : Nat := c.toNat - 48

theorem digitVal_digitChar10 (n : Nat) (h : n < 10) : digitVal (digitChar10 n) = n := by
  interval_cases n <;> rfl

theorem digitChar10_inj (a b : Nat) (ha : a < 10) (hb : b < 10)
    (h : digitChar10 a = digitChar10 b) : a = b := by
  have := congrArg digitVal h
  rwa [digitVal_digitChar10 a ha, digitVal_digitChar10 b hb] at this

/-- Fuel-driven decimal digit list: most significant digit first. -/
def natDigits : Nat → Nat → List Char
  | 0, _ => []
  | fuel + 1, n =>
    if n < 10 then [digitChar10 n]
    else natDigits fuel (n / 10) ++ [digitChar10 (n % 10)]

theorem natDigits_fuel (fuel : Nat) : ∀ fuel2 n : Nat, n < fuel → n < fuel2 →
    natDigits fuel n = natDigits fuel2 n := by
  induction fuel with
  | zero => omega
  | succ f ih =>
    intro fuel2 n h h2
    match fuel2, h2 with
    | f2 + 1, h2 =>
      unfold natDigits
      by_cases hn : n < 10
      · simp [hn]
      · have hd : n / 10 < n := Nat.div_lt_self (by omega) (by omega)
        simp only [if_neg hn]
        rw [ih f2 (n / 10) (by omega) (by omega)]

/-- Canonical decimal digit list of a natural. -/
def decDigits (n : Nat) : List Char := natDigits (n + 1) n

theorem decDigits_lt10 (n : Nat) (hn : n < 10) : decDigits n = [digitChar10 n] := by
  unfold decDigits natDigits
  simp [hn]

theorem decDigits_ge10 (n : Nat) (hn : ¬ n < 10) :
    decDigits n = decDigits (n / 10) ++ [digitChar10 (n % 10)] := by
  unfold decDigits
  conv_lhs => unfold natDigits
  simp only [if_neg hn]
  have hd : n / 10 < n := Nat.div_lt_self (by omega) (by omega)
  rw [natDigits_fuel n (n / 10 + 1) (n / 10) (by omega) (Nat.lt_succ_self _)]

theorem decDigits_ne_nil (n : Nat) : decDigits n ≠ [] := by
  by_cases hn : n < 10
  · rw [decDigits_lt10 n hn]
    simp
  · rw [decDigits_ge10 n hn]
    simp

theorem decDigits_colonFree (n : Nat) : ∀ c ∈ decDigits n, c ≠ ':' := by
  induction n using Nat.strong_induction_on with
  | _ n ih =>
    by_cases hn : n < 10
    · rw [decDigits_lt10 n hn]
      intro c hc
      rw [List.mem_singleton] at hc
      rw [hc]
      exact digitChar10_ne_colon n
    · rw [decDigits_ge10 n hn]
      intro c hc
      rw [List.mem_append, List.mem_singleton] at hc
      rcases hc with hc | hc
      · exact ih (n / 10) (Nat.div_lt_self (by omega) (by omega)) c hc
      · rw [hc]
        exact digitChar10_ne_colon _

theorem decDigits_inj (n : Nat) : ∀ m, decDigits n = decDigits m → n = m := by
  induction n using Nat.strong_induction_on with
  | _ n ih =>
    intro m heq
    by_cases hn : n < 10 <;> by_cases hm : m < 10
    · rw [decDigits_lt10 n hn, decDigits_lt10 m hm] at heq
      simp only [List.cons.injEq, and_true] at heq
      exact digitChar10_inj n m hn hm heq
    · rw [decDigits_lt10 n hn, decDigits_ge10 m hm] at heq
      have hne := decDigits_ne_nil (m / 10)
      have hlen := congrArg List.length heq
      simp only [List.length_singleton, List.length_append] at hlen
      have hpos : 0 < (decDigits (m / 10)).length := List.length_pos.mpr hne
      omega
    · rw [decDigits_ge10 n hn, decDigits_lt10 m hm] at heq
      have hne := decDigits_ne_nil (n / 10)
      have hlen := congrArg List.length heq
      simp only [List.length_singleton, List.length_append] at hlen
      have hpos : 0 < (decDigits (n / 10)).length := List.length_pos.mpr hne
      omega
    · rw [decDigits_ge10 n hn, decDigits_ge10 m hm] at heq
      have hlen := congrArg List.length heq
      simp only [List.length_append, List.length_singleton] at hlen
      obtain ⟨hinit, hlast⟩ := List.append_inj heq (by omega)
      have hdiv : n / 10 = m / 10 :=
        ih (n / 10) (Nat.div_lt_self (by omega) (by omega)) (m / 10) hinit
      have hmod : n % 10 = m % 10 := by
        simp only [List.cons.injEq, and_true] at hlast
        exact digitChar10_inj _ _ (Nat.mod_lt _ (by omega)) (Nat.mod_lt _ (by omega)) hlast
      omega

/-- JS number-to-string conversion restricted to naturals. -/
def natStr (n : Nat) : String := ⟨decDigits n⟩

theorem natStr_inj (n m : Nat) (h : natStr n = natStr m) : n = m := by
  unfold natStr at h
  exact decDigits_inj n m (congrArg String.data h)

theorem natStr_colonFree (n : Nat) : ∀ c ∈ (natStr n).data, c ≠ ':' :=
  decDigits_colonFree n

/-- The composite runtime-state key `` `${subject}:${house}` ``. -/
def houseKey (subject : String) (house : Nat) : String :=
  subject ++ ":" ++ natStr house

theorem takeWhile_colonFree_append (x y : List Char) (hx : ∀ c ∈ x, c ≠ ':') :
    (x ++ ':' :: y).takeWhile (fun c => c != ':') = x := by
  induction x with
  | nil => simp [List.takeWhile]
  | cons a l ih =>
    have ha : a ≠ ':' := hx a (List.mem_cons_self a l)
    have ha2 : (a != ':') = true := by
      simp [bne, ha]
    simp only [List.cons_append, List.takeWhile_cons, ha2, if_true]
    exact congrArg (a :: ·) (ih (fun c hc => hx c (List.mem_cons_of_mem a hc)))

theorem colonFree_suffix_inj (l1 l2 r1 r2 : List Char)
    (h1 : ∀ c ∈ r1, c ≠ ':') (h2 : ∀ c ∈ r2, c ≠ ':')
    (he : l1 ++ ':' :: r1 = l2 ++ ':' :: r2) : r1 = r2 := by
  have hrev := congrArg List.reverse he
  simp only [List.reverse_append, List.reverse_cons] at hrev
  have hrev2 : r1.reverse ++ ':' :: l1.reverse = r2.reverse ++ ':' :: l2.reverse := by
    simpa using hrev
  have ht1 := takeWhile_colonFree_append r1.reverse l1.reverse
    (fun c hc => h1 c (List.mem_reverse.mp hc))
  have ht2 := takeWhile_colonFree_append r2.reverse l2.reverse
    (fun c hc => h2 c (List.mem_reverse.mp hc))
  have : r1.reverse = r2.reverse := by
    rw [← ht1, ← ht2, hrev2]
  exact List.reverse_injective this

/-- Two state keys of the form `` `${x}:${h}` `` can only coincide when the
house components coincide: decimal digits contain no colon, so the house is
the longest colon-free suffix of the key. -/
theorem houseKey_inj_house (x y : String) (h t : Nat)
    (he : houseKey x h = houseKey y t) : h = t := by
  unfold houseKey at he
  have hdata := congrArg String.data he
  simp only [String.data_append, List.append_assoc, List.singleton_append] at hdata
  have := colonFree_suffix_inj x.data y.data (natStr h).data (natStr t).data
    (natStr_colonFree h) (natStr_colonFree t) hdata
  exact natStr_inj h t (String.ext this)

/-! ### JS `Map` / `Set` models -/

/-- JS `Map.get`: value of the first (unique) entry with the given key. -/
def mapGet {α β : Type} [DecidableEq α] (m : List (α × β)) (k : α) : Option β :=
  (m.find? (fun e => e.1 = k)).map (·.2)

/-- JS `Map.set`: overwrite the entry in place, or append a new one. -/
def mapSet {α β : Type} [DecidableEq α] : List (α × β) → α → β → List (α × β)
  | [], k, v => [(k, v)]
  | e :: rest, k, v => if e.1 = k then (k, v) :: rest else e :: mapSet rest k v

theorem mapGet_cons_key {α β : Type} [DecidableEq α] (l : List (α × β)) (k k2 : α) (v : β) :
    mapGet ((k, v) :: l) k2 = if k2 = k then some v else mapGet l k2 := by
  unfold mapGet
  by_cases h : k2 = k
  · rw [List.find?_cons_of_pos _ (by simp [h]), if_pos h]
    simp
  · rw [List.find?_cons_of_neg _ (by simp only [decide_eq_true_eq]; exact fun hc => h hc.symm),
      if_neg h]

theorem mapGet_mapSet {α β : Type} [DecidableEq α] (m : List (α × β)) (k k2 : α) (v : β) :
    mapGet (mapSet m k v) k2 = if k2 = k then some v else mapGet m k2 := by
  induction m with
  | nil => exact mapGet_cons_key [] k k2 v
  | cons e rest ih =>
    unfold mapSet
    by_cases he : e.1 = k
    · rw [if_pos he, mapGet_cons_key rest k k2 v]
      by_cases h : k2 = k
      · rw [if_pos h, if_pos h]
      · rw [if_neg h, if_neg h]
        unfold mapGet
        rw [List.find?_cons_of_neg _ (by
          simp only [decide_eq_true_eq]
          rw [he]
          exact fun hc => h hc.symm)]
    · rw [if_neg he]
      by_cases h2 : e.1 = k2
      · unfold mapGet
        rw [List.find?_cons_of_pos _ (by simp [h2]), List.find?_cons_of_pos _ (by simp [h2]),
          if_neg (fun hc : k2 = k => he (h2.trans hc))]
      · unfold mapGet
        rw [List.find?_cons_of_neg _ (by simp [h2]), List.find?_cons_of_neg _ (by simp [h2])]
        exact ih

theorem mapGet_mem {α β : Type} [DecidableEq α] (m : List (α × β)) (k : α) (v : β)
    (h : mapGet m k = some v) : (k, v) ∈ m := by
  unfold mapGet at h
  cases hf : m.find? (fun e => e.1 = k) with
  | none => rw [hf] at h; simp at h
  | some e =>
    rw [hf] at h
    have hmem := List.mem_of_find?_eq_some hf
    have hkey := List.find?_some hf
    simp only [decide_eq_true_eq] at hkey
    have h2 : e.2 = v := by simpa using h
    have : e = (k, v) := by
      cases e
      simp_all
    rw [← this]
    exact hmem

/-- JS `Set.add` on a set represented as its insertion-ordered element list. -/
def setAdd (l : List String) (x : String) : List String :=
  if l.contains x then l else l ++ [x]

theorem setAdd_contains_self (l : List String) (x : String) :
    (setAdd l x).contains x = true := by
  unfold setAdd
  by_cases h : l.contains x = true
  · rw [if_pos h]
    exact h
  · rw [if_neg h]
    simp

theorem setAdd_contains_mono (l : List String) (x y : String)
    (h : l.contains y = true) : (setAdd l x).contains y = true := by
  unfold setAdd
  have hy : y ∈ l := by simpa using h
  by_cases hc : l.contains x = true
  · rw [if_pos hc]
    exact h
  · rw [if_neg hc]
    simp [hy]

/-! ### Identifiers and orientation data model

Translated from `src/utils/viewFrame.ts` and the type declarations it
imports from `@gaia-tools/aphrodite-shared/orientation` (shapes as
described by the spec's data model). -/

/-- A JS `number | string` object identifier (planet keys). -/
inductive ObjId where
  | num : Nat → ObjId
  | str : String → ObjId
deriving DecidableEq, Repr

/-- JS string conversion of an object identifier, as used when a template
string interpolates `trigger.planet` / a `Map` key. -/
def ObjId.render : ObjId → String
  | .num n => natStr n
  | .str s => s

/-- Chart angle types (`'ASC' | 'MC' | 'IC' | 'DESC'`). -/
inductive AngleType where
  | ASC | MC | IC | DESC
deriving DecidableEq, Repr

/-- Element types appearing in lock rules
(`'object' | 'house' | 'sign' | 'angle'`). -/
inductive ElemType where
  | object | house | sign | angle
deriving DecidableEq, Repr

/-- Element identifier union
(`number | string | HouseNumber | SignNumber | AngleType`). -/
inductive ElemId where
  | num : Nat → ElemId
  | str : String → ElemId
  | ang : AngleType → ElemId
deriving DecidableEq, Repr

/-- Lock target frames (`'world' | 'screen' | 'houses' | 'signs'`). -/
inductive LockFrame where
  | world | screen | houses | signs
deriving DecidableEq, Repr

/-- A lock rule: binds an element selector to a `LockFrame`.
The selector shape follows the spec's data model (type + id). -/
structure LockRule where
  elementType : ElemType
  elementId : ElemId
  frame : LockFrame
deriving DecidableEq, Repr

/-- Frame direction: legacy `'cw' | 'ccw'` or new-model `1 | -1`. -/
inductive Direction where
  | cw | ccw | pos | neg
deriving DecidableEq, Repr

/-- Anchor target union: one of object / house-cusp / sign-start / angle,
as described by the spec's data model. -/
inductive AnchorTarget where
  | object : ObjId → AnchorTarget
  | house : Nat → AnchorTarget
  | sign : Nat → AnchorTarget
  | angle : AngleType → AnchorTarget
deriving DecidableEq, Repr

/-- The `ViewFrame` orientation configuration (spec data model §3):
anchor, legacy screen angle, direction, and the optional new-model
`(worldZero, screenZero)` pair. -/
structure ViewFrame where
  anchor : AnchorTarget
  screenAngleDeg : ℚ
  direction : Direction
  worldZero : Option ℚ := none
  screenZero : Option ℚ := none
deriving DecidableEq, Repr

/-- `ChartDataForOrientation` from `src/utils/viewFrame.ts`: three optional
maps of longitudes. -/
structure ChartDataForOrientation where
  planetLongitudes : Option (List (ObjId × ℚ)) := none
  houseCusps : Option (List (Nat × ℚ)) := none
  angleLongitudes : Option (List (AngleType × ℚ)) := none

/-- `AnchorLongitudeResolver` interface from the shared orientation module. -/
structure AnchorLongitudeResolver where
  getObjectLongitude : ObjId → Option ℚ
  getHouseCusp : Nat → Option ℚ
  getSignStart : Nat → ℚ
  getAngleLongitude : AngleType → Option ℚ

/-- `createAnchorResolver` from `src/utils/viewFrame.ts`. -/
def createAnchorResolver (data : ChartDataForOrientation) : AnchorLongitudeResolver :=
  { getObjectLongitude := fun objectId => data.planetLongitudes.bind (fun m => mapGet m objectId)
    getHouseCusp := fun houseNumber => data.houseCusps.bind (fun m => mapGet m houseNumber)
    getSignStart := fun signNumber => (signNumber : ℚ) * 30
    getAngleLongitude := fun angleType => data.angleLongitudes.bind (fun m => mapGet m angleType) }

/-- Modelled from the spec: `getAnchorLongitude` from
`@gaia-tools/aphrodite-shared/orientation` (not in this repository's
sources). Per spec §4.2 it dispatches the anchor reference to the matching
resolver lookup, returning the longitude or the not-found sentinel. -/
def getAnchorLongitude (anchor : AnchorTarget) (resolver : AnchorLongitudeResolver) : Option ℚ :=
  match anchor with
  | .object id => resolver.getObjectLongitude id
  | .house h => resolver.getHouseCusp h
  | .sign s => some (resolver.getSignStart s)
  | .angle a => resolver.getAngleLongitude a

/-- Sign of a frame direction (used only by the resolvable-anchor branch). -/
def Direction.sign : Direction → ℚ
  | .cw => 1
  | .pos => 1
  | .ccw => -1
  | .neg => -1

/-- Modelled from the spec: `worldToScreenAngle` from
`@gaia-tools/aphrodite-shared/orientation` (not in this repository's
sources). Per spec §4.3 the screen angle is a direction-scaled linear
function of `worldLongitude - anchorLongitude`, offset so the anchor maps
to the frame's configured screen angle. -/
def worldToScreenAngle (worldLongitude : ℚ) (frame : ViewFrame) (anchorLongitude : ℚ) : ℚ :=
  normalizeDeg (frame.screenAngleDeg + frame.direction.sign * (worldLongitude - anchorLongitude))

/-- `convertToScreenAngle` from `src/utils/viewFrame.ts`. -/
def convertToScreenAngle (worldLongitude : ℚ) (viewFrame : ViewFrame)
    (chartData : ChartDataForOrientation) : ℚ :=
  let resolver := createAnchorResolver chartData
  match getAnchorLongitude viewFrame.anchor resolver with
  | none =>
    let offset := viewFrame.screenAngleDeg - 180
    normalizeDeg (180 - worldLongitude + offset)
  | some anchorLongitude => worldToScreenAngle worldLongitude viewFrame anchorLongitude

/-- Modelled from the spec: `lockRuleApplies` from
`@gaia-tools/aphrodite-shared/orientation` (not in this repository's
sources). Per spec §4.5 it is a structural match on element type + id. -/
def lockRuleApplies (lock : LockRule) (elementType : ElemType) (elementId : ElemId) : Bool :=
  lock.elementType = elementType && lock.elementId = elementId

/-- `shouldLockElement` from `src/utils/viewFrame.ts`. -/
def shouldLockElement (elementType : ElemType) (elementId : ElemId)
    (locks : List LockRule) : Bool :=
  locks.any (fun lock => lockRuleApplies lock elementType elementId)

/-- `getLockFrameForElement` from `src/utils/viewFrame.ts`. -/
def getLockFrameForElement (elementType : ElemType) (elementId : ElemId)
    (locks : List LockRule) : Option LockFrame :=
  (locks.find? (fun lock => lockRuleApplies lock elementType elementId)).map (·.frame)

/-- `getEffectiveLongitude` from `src/utils/viewFrame.ts`. The `screen`
branch computes a screen angle and discards it, as the source does. -/
def getEffectiveLongitude (worldLongitude : ℚ) (elementType : ElemType)
    (elementId : ElemId) (viewFrame : ViewFrame)
    (chartData : ChartDataForOrientation) (locks : List LockRule) : ℚ :=
  match getLockFrameForElement elementType elementId locks with
  | none => worldLongitude
  | some LockFrame.screen =>
    let screenAngle := convertToScreenAngle worldLongitude viewFrame chartData
    worldLongitude
  | some LockFrame.world => worldLongitude
  | some _ => worldLongitude

/-! ### House locator -/

/-- The body of the cusp-scanning loop of `getHouseForLongitude`: each
sorted cusp is paired with its cyclic successor (`sorted[(i+1) % n]`,
i.e. `sorted.rotate 1`), and the first pair whose (possibly wrapping)
span contains the longitude wins. -/
def houseSpanContains (normalizedLon : ℚ) (cn : (Nat × ℚ) × (Nat × ℚ)) : Bool :=
  if cn.2.2 < cn.1.2 then
    decide (normalizedLon ≥ cn.1.2 ∨ normalizedLon < cn.2.2)
  else
    decide (cn.1.2 ≤ normalizedLon ∧ normalizedLon < cn.2.2)

/-- `getHouseForLongitude` from `src/utils/viewFrame.ts`: normalize, sort
the cusp entries by cusp longitude ascending, scan for the containing
house, and fall back to the first sorted house. -/
def getHouseForLongitude (longitude : ℚ) (houseCusps : List (Nat × ℚ)) : Option Nat :=
  if houseCusps.isEmpty then none
  else
    let normalizedLon := normalizeDeg longitude
    let sortedHouses :=
      List.insertionSort (fun a b : Nat × ℚ => a.2 ≤ b.2)
        (houseCusps.map (fun p => (p.1, normalizeDeg p.2)))
    match (sortedHouses.zip (sortedHouses.rotate 1)).find? (houseSpanContains normalizedLon) with
    | some cn => some cn.1.1
    | none => sortedHouses.head?.map (·.1)

/-! ### Orientation rules, snapshots and runtime state -/

/-- Trigger union of `OrientationRule` (spec data model §3). -/
inductive Trigger where
  | ascLeavesHouse : Nat → Trigger
  | planetCrossesHouse : ObjId → Nat → Trigger
  | planetCrossesAngle : ObjId → AngleType → Trigger
  | custom : Trigger
deriving DecidableEq, Repr

/-- Effect union of `OrientationRule` (spec data model §3). -/
inductive Effect where
  | rotate : ℚ → Effect
  | setViewFrame : ViewFrame → Effect
  | mirror : Effect
deriving DecidableEq, Repr

/-- `OrientationRule`: id + trigger + effect + optional contributed locks. -/
structure OrientationRule where
  id : String
  trigger : Trigger
  effect : Effect
  locks : Option (List LockRule) := none
deriving DecidableEq, Repr

/-- `ChartSnapshot`: the three optional longitude maps (spec §3). -/
structure ChartSnapshot where
  planetLongitudes : Option (List (ObjId × ℚ)) := none
  houseCusps : Option (List (Nat × ℚ)) := none
  angleLongitudes : Option (List (AngleType × ℚ)) := none

/-- `OrientationRuntimeState`: applied rule ids (a JS `Set<string>`) and the
optional previous-house-position map keyed by `` `${subject}:${house}` ``. -/
structure OrientationRuntimeState where
  appliedRuleIds : List String
  previousHousePositions : Option (List (String × Nat))

/-- `chart.angleLongitudes?.get(a)` (optional chaining). -/
def chartAngle (chart : ChartSnapshot) (a : AngleType) : Option ℚ :=
  chart.angleLongitudes.bind (fun m => mapGet m a)

/-- `chart.planetLongitudes?.get(p)` (optional chaining). -/
def chartPlanet (chart : ChartSnapshot) (p : ObjId) : Option ℚ :=
  chart.planetLongitudes.bind (fun m => mapGet m p)

/-- `state.previousHousePositions?.get(key)` (optional chaining). -/
def statePrev (state : OrientationRuntimeState) (key : String) : Option Nat :=
  state.previousHousePositions.bind (fun m => mapGet m key)

/-- `ruleTriggered` from `src/utils/viewFrame.ts`. -/
def ruleTriggered (rule : OrientationRule) (chart : ChartSnapshot)
    (state : OrientationRuntimeState) : Bool :=
  match rule.trigger with
  | .ascLeavesHouse targetHouse =>
    match chartAngle chart .ASC, chart.houseCusps with
    | some ascLon, some houseCusps =>
      let currentHouse := getHouseForLongitude ascLon houseCusps
      if state.appliedRuleIds.contains rule.id then false
      else
        let prevHouse := statePrev state (houseKey "ASC" targetHouse)
        if currentHouse = some targetHouse ∧ prevHouse ≠ none ∧ prevHouse ≠ some targetHouse
        then true
        else if prevHouse = some targetHouse ∧ currentHouse ≠ some targetHouse then true
        else false
    | _, _ => false
  | .planetCrossesHouse planet targetHouse =>
    match chartPlanet chart planet, chart.houseCusps with
    | some planetLon, some houseCusps =>
      let currentHouse := getHouseForLongitude planetLon houseCusps
      let prevHouse := statePrev state (houseKey planet.render targetHouse)
      decide (currentHouse = some targetHouse ∧ prevHouse ≠ some targetHouse)
    | _, _ => false
  | .planetCrossesAngle planet angle =>
    match chartPlanet chart planet, chartAngle chart angle with
    | some planetLon, some angleLon =>
      let orb : ℚ := 1
      let diff := |normalizeDeg (planetLon - angleLon)|
      let minDiff := min diff (360 - diff)
      decide (minDiff ≤ orb)
    | _, _ => false
  | .custom => false

/-- The per-planet tracking step of `applyRule`'s
`for (const [planetId, lon] of chart.planetLongitudes.entries())` loop. -/
def trackPlanet (houseCusps : List (Nat × ℚ)) (acc : List (String × Nat))
    (entry : ObjId × ℚ) : List (String × Nat) :=
  match getHouseForLongitude entry.2 houseCusps with
  | some house => mapSet acc (houseKey entry.1.render house) house
  | none => acc

/-- The ASC tracking step of `applyRule`'s position-tracking block. -/
def trackAsc (chart : ChartSnapshot) (houseCusps : List (Nat × ℚ))
    (m : List (String × Nat)) : List (String × Nat) :=
  match chartAngle chart .ASC with
  | some ascLon =>
    match getHouseForLongitude ascLon houseCusps with
    | some ascHouse => mapSet m (houseKey "ASC" ascHouse) ascHouse
    | none => m
  | none => m

/-- The house-position tracking block of `applyRule` (ASC, then every
planet, from the current snapshot). -/
def trackPositions (chart : ChartSnapshot) (m : List (String × Nat)) : List (String × Nat) :=
  match chart.houseCusps with
  | none => m
  | some houseCusps =>
    match chart.planetLongitudes with
    | some planetLongitudes =>
      planetLongitudes.foldl (trackPlanet houseCusps) (trackAsc chart houseCusps m)
    | none => trackAsc chart houseCusps m

/-- Result triple of `applyRule`. -/
structure ApplyRuleResult where
  frame : ViewFrame
  extraLocks : List LockRule
  newState : OrientationRuntimeState

/-- `applyRule` from `src/utils/viewFrame.ts`: clone the state (cloning an
absent previous-position map yields an empty one, as `new Map(undefined)`
does), mark the rule applied, re-track house positions from the snapshot,
and apply the effect copy-on-write. -/
def applyRule (rule : OrientationRule) (frame : ViewFrame) (locks : List LockRule)
    (chart : ChartSnapshot) (state : OrientationRuntimeState) : ApplyRuleResult :=
  let applied := setAdd state.appliedRuleIds rule.id
  let cloned := (state.previousHousePositions).getD []
  let tracked := trackPositions chart cloned
  let newFrame :=
    match rule.effect with
    | .rotate delta =>
      match frame.worldZero, frame.screenZero with
      | some _, some screenZero =>
        { frame with screenZero := some (normalizeDeg (screenZero + delta)) }
      | _, _ =>
        { frame with screenAngleDeg := normalizeDeg (frame.screenAngleDeg + delta) }
    | .setViewFrame viewFrame => viewFrame
    | .mirror =>
      match frame.worldZero, frame.screenZero with
      | some _, some _ =>
        { frame with direction := if frame.direction = .neg then .pos else .neg }
      | _, _ =>
        { frame with direction := if frame.direction = .cw then .ccw else .cw }
  { frame := newFrame
    extraLocks := rule.locks.getD []
    newState := { appliedRuleIds := applied, previousHousePositions := some tracked } }

/-- `OrientationProgram`: base frame + optional static locks + optional
rules (defaulted to empty by destructuring in the source). -/
structure OrientationProgram where
  baseFrame : ViewFrame
  locks : Option (List LockRule) := none
  rules : Option (List OrientationRule) := none

/-- Result triple of `evalOrientationProgram`. -/
structure EvalResult where
  frame : ViewFrame
  locks : List LockRule
  state : OrientationRuntimeState

/-- The fresh runtime state created when no previous state is supplied. -/
def freshState : OrientationRuntimeState :=
  { appliedRuleIds := [], previousHousePositions := some [] }

/-- The rule loop of `evalOrientationProgram`: walk the rules in order,
applying each rule that triggers against the running state. -/
def runRules (chart : ChartSnapshot) (locks : List LockRule) :
    List OrientationRule → ViewFrame → List LockRule → OrientationRuntimeState →
    ViewFrame × List LockRule × OrientationRuntimeState
  | [], frame, extraLocks, state => (frame, extraLocks, state)
  | rule :: rest, frame, extraLocks, state =>
    if ruleTriggered rule chart state then
      let result := applyRule rule frame locks chart state
      runRules chart locks rest result.frame (extraLocks ++ result.extraLocks) result.newState
    else
      runRules chart locks rest frame extraLocks state

/-- `evalOrientationProgram` from `src/utils/viewFrame.ts`. -/
def evalOrientationProgram (program : OrientationProgram) (chart : ChartSnapshot)
    (previousState : Option OrientationRuntimeState) : EvalResult :=
  let locks := program.locks.getD []
  let rules := program.rules.getD []
  let result := runRules chart locks rules program.baseFrame [] (previousState.getD freshState)
  { frame := result.1, locks := locks ++ result.2.1, state := result.2.2 }

/-- Observation of the rule loop: does the given rule belong and trigger at
its place in the walk? Threads frame and state exactly as `runRules` does. -/
def firedDuring (chart : ChartSnapshot) (locks : List LockRule) (target : OrientationRule) :
    List OrientationRule → ViewFrame → OrientationRuntimeState → Bool
  | [], _, _ => false
  | rule :: rest, frame, state =>
    if ruleTriggered rule chart state then
      decide (rule = target) ||
        firedDuring chart locks target rest (applyRule rule frame locks chart state).frame
          (applyRule rule frame locks chart state).newState
    else
      firedDuring chart locks target rest frame state

/-! ### Claim C10: locking never alters the effective longitude -/

/-- C10: for every world longitude, element, frame, chart data and lock
list, `getEffectiveLongitude` returns the input world longitude unchanged —
every lock-frame branch and the unlocked case yield the world longitude. -/
theorem getEffectiveLongitude_eq_world (worldLongitude : ℚ) (elementType : ElemType)
    (elementId : ElemId) (viewFrame : ViewFrame) (chartData : ChartDataForOrientation)
    (locks : List LockRule) :
    getEffectiveLongitude worldLongitude elementType elementId viewFrame chartData locks
      = worldLongitude := by
  unfold getEffectiveLongitude
  cases h : getLockFrameForElement elementType elementId locks with
  | none => rfl
  | some lockFrame => cases lockFrame <;> rfl

/-! ### Claim C3: unresolvable-anchor fallback of `convertToScreenAngle` -/

/-- C3: when the anchor cannot be resolved from the chart data,
`convertToScreenAngle` returns exactly
`normalize(180 - worldLongitude + (screenAngleDeg - 180))`, and the result
lies in `[0, 360)`. (Total function: it never throws.) -/
theorem convertToScreenAngle_unresolvable (worldLongitude : ℚ) (viewFrame : ViewFrame)
    (chartData : ChartDataForOrientation)
    (h : getAnchorLongitude viewFrame.anchor (createAnchorResolver chartData) = none) :
    convertToScreenAngle worldLongitude viewFrame chartData
        = normalizeDeg (180 - worldLongitude + (viewFrame.screenAngleDeg - 180)) ∧
      0 ≤ convertToScreenAngle worldLongitude viewFrame chartData ∧
      convertToScreenAngle worldLongitude viewFrame chartData < 360 := by
  have heq : convertToScreenAngle worldLongitude viewFrame chartData
      = normalizeDeg (180 - worldLongitude + (viewFrame.screenAngleDeg - 180)) := by
    simp only [convertToScreenAngle, h]
  exact ⟨heq, heq ▸ normalizeDeg_nonneg _, heq ▸ normalizeDeg_lt_360 _⟩

/-- A frame whose anchor (object 0) is absent from empty chart data. -/
def unresolvableFrame : ViewFrame :=
  { anchor := .object (.num 0), screenAngleDeg := 200, direction := .cw }

/-- Witness for C3 at a concrete input. -/
theorem convertToScreenAngle_unresolvable_witness :
    convertToScreenAngle 10 unresolvableFrame {}
        = normalizeDeg (180 - 10 + (unresolvableFrame.screenAngleDeg - 180)) ∧
      0 ≤ convertToScreenAngle 10 unresolvableFrame {} ∧
      convertToScreenAngle 10 unresolvableFrame {} < 360 :=
  convertToScreenAngle_unresolvable 10 unresolvableFrame {} (by decide)

/-! ### Claim C6: house locator on 12 evenly spaced cusps -/

/-- Twelve evenly spaced cusps starting at 0°: house `h` starts at
`(h - 1) * 30`. -/
def evenCusps : List (Nat × ℚ) :=
  [(1, 0), (2, 30), (3, 60), (4, 90), (5, 120), (6, 150),
   (7, 180), (8, 210), (9, 240), (10, 270), (11, 300), (12, 330)]

/-- C6: with the 12 evenly spaced cusps, longitude 15 falls in house 1,
longitude 359 in house 12, and longitude 0 in house 1. -/
theorem getHouseForLongitude_evenCusps :
    getHouseForLongitude 15 evenCusps = some 1 ∧
    getHouseForLongitude 359 evenCusps = some 12 ∧
    getHouseForLongitude 0 evenCusps = some 1 := by
  refine ⟨by decide, by decide, by decide⟩

/-! ### Claim C8: first-match semantics of the lock-frame lookup -/

/-- C8: `getLockFrameForElement` returns `none` when no rule matches, and
the frame of the first matching rule in list order otherwise (later
matching rules are shadowed). -/
theorem getLockFrameForElement_first_match (elementType : ElemType) (elementId : ElemId)
    (locks : List LockRule) :
    ((∀ l ∈ locks, lockRuleApplies l elementType elementId = false) →
      getLockFrameForElement elementType elementId locks = none) ∧
    (∀ pre r post, locks = pre ++ r :: post →
      (∀ l ∈ pre, lockRuleApplies l elementType elementId = false) →
      lockRuleApplies r elementType elementId = true →
      getLockFrameForElement elementType elementId locks = some r.frame) := by
  constructor
  · intro hall
    unfold getLockFrameForElement
    rw [List.find?_eq_none.mpr (fun l hl => by simp [hall l hl])]
    rfl
  · intro pre r post hlocks hpre hr
    subst hlocks
    unfold getLockFrameForElement
    rw [List.find?_append, List.find?_eq_none.mpr (fun l hl => by simp [hpre l hl])]
    simp [List.find?_cons, hr]

/-- Two rules matching the same element with different frames. -/
def shadowedLockA : LockRule :=
  { elementType := .object, elementId := .num 3, frame := .screen }

/-- The second, shadowed rule. -/
def shadowedLockB : LockRule :=
  { elementType := .object, elementId := .num 3, frame := .world }

/-- Witness for C8: with two matching rules the first rule's frame wins. -/
theorem getLockFrameForElement_first_match_witness :
    getLockFrameForElement .object (.num 3) [shadowedLockA, shadowedLockB]
      = some LockFrame.screen :=
  (getLockFrameForElement_first_match .object (.num 3) [shadowedLockA, shadowedLockB]).2
    [] shadowedLockA [shadowedLockB] rfl (by simp) (by decide)

/-! ### Claim C9: missing snapshot data never fires a trigger -/

/-- The snapshot lacks the data the trigger needs (claim C9's hypothesis):
the planet's longitude, the angle's longitude, or the house cusps. -/
def triggerDataMissing (t : Trigger) (chart : ChartSnapshot) : Prop :=
  match t with
  | .ascLeavesHouse _ => chartAngle chart .ASC = none ∨ chart.houseCusps = none
  | .planetCrossesHouse planet _ => chartPlanet chart planet = none ∨ chart.houseCusps = none
  | .planetCrossesAngle planet angle =>
    chartPlanet chart planet = none ∨ chartAngle chart angle = none
  | .custom => True

/-- C9: when the snapshot lacks the data a trigger needs, `ruleTriggered`
returns `false` for every trigger variant (and, being total, never
throws). -/
theorem ruleTriggered_missing_data (rule : OrientationRule) (chart : ChartSnapshot)
    (state : OrientationRuntimeState) (h : triggerDataMissing rule.trigger chart) :
    ruleTriggered rule chart state = false := by
  cases htr : rule.trigger with
  | ascLeavesHouse house =>
    rw [htr] at h
    unfold triggerDataMissing at h
    rcases h with h | h
    · simp [ruleTriggered, htr, h]
    · cases ha : chartAngle chart .ASC <;> simp [ruleTriggered, htr, h, ha]
  | planetCrossesHouse planet house =>
    rw [htr] at h
    unfold triggerDataMissing at h
    rcases h with h | h
    · simp [ruleTriggered, htr, h]
    · cases hp : chartPlanet chart planet <;> simp [ruleTriggered, htr, h, hp]
  | planetCrossesAngle planet angle =>
    rw [htr] at h
    unfold triggerDataMissing at h
    rcases h with h | h
    · simp [ruleTriggered, htr, h]
    · cases hp : chartPlanet chart planet <;> simp [ruleTriggered, htr, h, hp]
  | custom => simp [ruleTriggered, htr]

/-- A rule whose trigger needs the ASC longitude and house cusps. -/
def missingDataRule : OrientationRule :=
  { id := "r9", trigger := .ascLeavesHouse 1, effect := .rotate 30 }

/-- Witness for C9: on an empty snapshot the ascLeavesHouse trigger does
not fire. -/
theorem ruleTriggered_missing_data_witness :
    ruleTriggered missingDataRule {} freshState = false :=
  ruleTriggered_missing_data missingDataRule {} freshState (Or.inl rfl)

/-! ### Claim C5: the rotate effect -/

/-- A frame with `screenZero` set but `worldZero` absent. -/
def mixedZeroFrame : ViewFrame :=
  { anchor := .object (.num 0), screenAngleDeg := 0, direction := .cw,
    worldZero := none, screenZero := some 10 }

/-- A rule with effect `rotate 30` (trigger irrelevant to `applyRule`). -/
def rotateRule : OrientationRule :=
  { id := "r5", trigger := .custom, effect := .rotate 30 }

/-- Counterexample to C5 as stated: on a frame with `screenZero` set but
`worldZero` absent, the rotate effect leaves `screenZero` untouched (it
updates `screenAngleDeg` instead), because the source requires both
`worldZero` and `screenZero` to select the new model. -/
theorem applyRule_rotate_screenZero_cex :
    mixedZeroFrame.screenZero = some 10 ∧
    (applyRule rotateRule mixedZeroFrame [] {} freshState).frame.screenZero = some 10 ∧
    (applyRule rotateRule mixedZeroFrame [] {} freshState).frame.screenZero
        ≠ some (normalizeDeg (10 + 30)) ∧
    (applyRule rotateRule mixedZeroFrame [] {} freshState).frame.screenAngleDeg
        = normalizeDeg (0 + 30) := by
  refine ⟨rfl, by decide, by decide, by decide⟩

/-- C5 (amended): the rotate effect updates `screenZero` only when both
`worldZero` and `screenZero` are set; otherwise it updates
`screenAngleDeg`; both normalized into `[0, 360)`. -/
theorem applyRule_rotate_amended (rule : OrientationRule) (frame : ViewFrame)
    (locks : List LockRule) (chart : ChartSnapshot) (state : OrientationRuntimeState)
    (delta : ℚ) (heff : rule.effect = .rotate delta) :
    (∀ wz sz, frame.worldZero = some wz → frame.screenZero = some sz →
      (applyRule rule frame locks chart state).frame.screenZero
          = some (normalizeDeg (sz + delta)) ∧
        0 ≤ normalizeDeg (sz + delta) ∧ normalizeDeg (sz + delta) < 360) ∧
    ((frame.worldZero = none ∨ frame.screenZero = none) →
      (applyRule rule frame locks chart state).frame.screenAngleDeg
          = normalizeDeg (frame.screenAngleDeg + delta) ∧
        0 ≤ normalizeDeg (frame.screenAngleDeg + delta) ∧
        normalizeDeg (frame.screenAngleDeg + delta) < 360) := by
  constructor
  · intro wz sz hwz hsz
    refine ⟨?_, normalizeDeg_nonneg _, normalizeDeg_lt_360 _⟩
    simp [applyRule, heff, hwz, hsz]
  · intro hmissing
    refine ⟨?_, normalizeDeg_nonneg _, normalizeDeg_lt_360 _⟩
    rcases hmissing with hwz | hsz
    · simp [applyRule, heff, hwz]
    · cases hwz : frame.worldZero <;> simp [applyRule, heff, hwz, hsz]

/-- A frame with both new-model zeros set. -/
def bothZeroFrame : ViewFrame :=
  { anchor := .object (.num 0), screenAngleDeg := 0, direction := .pos,
    worldZero := some 0, screenZero := some 350 }

/-- Witness for the amended C5: both zeros present, so `screenZero` is
rotated (and wraps into `[0, 360)`). -/
theorem applyRule_rotate_amended_witness :
    (applyRule rotateRule bothZeroFrame [] {} freshState).frame.screenZero
        = some (normalizeDeg (350 + 30)) ∧
      0 ≤ normalizeDeg ((350 : ℚ) + 30) ∧ normalizeDeg ((350 : ℚ) + 30) < 360 :=
  (applyRule_rotate_amended rotateRule bothZeroFrame [] {} freshState 30 rfl).1 0 350 rfl rfl

/-! ### Claim C4: the planetCrossesAngle orb test -/

/-- C4: with both longitudes present, `planetCrossesAngle` fires exactly
when the angular distance — the minimum of `|P - A| mod 360` and `360`
minus it — is at most 1 degree. -/
theorem ruleTriggered_planetCrossesAngle_iff (rule : OrientationRule) (chart : ChartSnapshot)
    (state : OrientationRuntimeState) (planet : ObjId) (angle : AngleType) (p a : ℚ)
    (htr : rule.trigger = .planetCrossesAngle planet angle)
    (hp : chartPlanet chart planet = some p)
    (ha : chartAngle chart angle = some a) :
    ruleTriggered rule chart state = true ↔
      min (normalizeDeg |p - a|) (360 - normalizeDeg |p - a|) ≤ 1 := by
  have hcode : ruleTriggered rule chart state
      = decide (min |normalizeDeg (p - a)| (360 - |normalizeDeg (p - a)|) ≤ 1) := by
    simp [ruleTriggered, htr, hp, ha]
  rw [hcode, decide_eq_true_iff]
  rw [abs_of_nonneg (normalizeDeg_nonneg (p - a))]
  rcases le_total a p with hle | hle
  · rw [abs_of_nonneg (by linarith : (0 : ℚ) ≤ p - a)]
  · rw [abs_of_nonpos (by linarith : p - a ≤ 0), min_normalizeDeg_neg (p - a)]

/-- Snapshot with mars at longitude 0 and the ASC at longitude 1
(angular distance exactly 1). -/
def orbChart : ChartSnapshot :=
  { planetLongitudes := some [(.str "mars", 0)],
    angleLongitudes := some [(.ASC, 1)] }

/-- Rule triggered by mars crossing the ASC. -/
def orbRule : OrientationRule :=
  { id := "r4", trigger := .planetCrossesAngle (.str "mars") .ASC, effect := .rotate 30 }

/-- Witness for C4: at angular distance exactly 1 the trigger fires. -/
theorem ruleTriggered_planetCrossesAngle_iff_witness :
    ruleTriggered orbRule orbChart freshState = true :=
  (ruleTriggered_planetCrossesAngle_iff orbRule orbChart freshState (.str "mars") .ASC 0 1
    rfl (by decide) (by decide)).mpr (by decide)

/-! ### Claim C7: totality of the house locator -/

/-- C7: the house locator returns the not-found sentinel exactly when the
cusp map is empty; on any non-empty cusp map (well-formed or not) it
returns a house number appearing in the map. (Total function: no throw,
no divergence.) -/
theorem getHouseForLongitude_total (longitude : ℚ) (houseCusps : List (Nat × ℚ)) :
    (getHouseForLongitude longitude houseCusps = none ↔ houseCusps = []) ∧
    (∀ h, getHouseForLongitude longitude houseCusps = some h →
      h ∈ houseCusps.map Prod.fst) := by
  by_cases hemp : houseCusps = []
  · subst hemp
    refine ⟨by simp [getHouseForLongitude], fun h hcontra => ?_⟩
    simp [getHouseForLongitude] at hcontra
  · have hne : houseCusps.isEmpty = false := by
      cases houseCusps with
      | nil => exact absurd rfl hemp
      | cons a l => rfl
    have hmem : ∀ x : Nat × ℚ,
        x ∈ List.insertionSort (fun a b : Nat × ℚ => a.2 ≤ b.2)
          (houseCusps.map (fun p => (p.1, normalizeDeg p.2))) →
        x.1 ∈ houseCusps.map Prod.fst := by
      intro x hx
      have hx2 : x ∈ houseCusps.map (fun p => (p.1, normalizeDeg p.2)) :=
        (List.perm_insertionSort _ _).mem_iff.mp hx
      obtain ⟨p, hp, hpx⟩ := List.mem_map.mp hx2
      exact List.mem_map.mpr ⟨p, hp, by rw [← hpx]⟩
    have hsne : List.insertionSort (fun a b : Nat × ℚ => a.2 ≤ b.2)
        (houseCusps.map (fun p => (p.1, normalizeDeg p.2))) ≠ [] := by
      intro hnil
      have hlen := (List.perm_insertionSort (fun a b : Nat × ℚ => a.2 ≤ b.2)
        (houseCusps.map (fun p => (p.1, normalizeDeg p.2)))).length_eq
      rw [hnil] at hlen
      simp only [List.length_nil, List.length_map] at hlen
      exact hemp (List.length_eq_zero.mp hlen.symm)
    have hcode : getHouseForLongitude longitude houseCusps =
        (match (List.insertionSort (fun a b : Nat × ℚ => a.2 ≤ b.2)
            (houseCusps.map (fun p => (p.1, normalizeDeg p.2)))).zip
            ((List.insertionSort (fun a b : Nat × ℚ => a.2 ≤ b.2)
              (houseCusps.map (fun p => (p.1, normalizeDeg p.2)))).rotate 1)
            |>.find? (houseSpanContains (normalizeDeg longitude)) with
          | some cn => some cn.1.1
          | none =>
            (List.insertionSort (fun a b : Nat × ℚ => a.2 ≤ b.2)
              (houseCusps.map (fun p => (p.1, normalizeDeg p.2)))).head?.map (·.1)) := by
      simp only [getHouseForLongitude, hne]
      rfl
    rw [hcode]
    cases hfind : (List.insertionSort (fun a b : Nat × ℚ => a.2 ≤ b.2)
        (houseCusps.map (fun p => (p.1, normalizeDeg p.2)))).zip
        ((List.insertionSort (fun a b : Nat × ℚ => a.2 ≤ b.2)
          (houseCusps.map (fun p => (p.1, normalizeDeg p.2)))).rotate 1)
        |>.find? (houseSpanContains (normalizeDeg longitude)) with
    | some cn =>
      have hzip := List.mem_of_find?_eq_some hfind
      have hfst := (List.of_mem_zip hzip).1
      constructor
      · constructor
        · intro hcontra
          simp at hcontra
        · intro hcontra
          exact absurd hcontra hemp
      · intro h hh
        simp only [Option.some.injEq] at hh
        rw [← hh]
        exact hmem cn.1 hfst
    | none =>
      cases hs : List.insertionSort (fun a b : Nat × ℚ => a.2 ≤ b.2)
          (houseCusps.map (fun p => (p.1, normalizeDeg p.2))) with
      | nil => exact absurd hs hsne
      | cons x xs =>
        constructor
        · constructor
          · intro hcontra
            simp [hs] at hcontra
          · intro hcontra
            exact absurd hcontra hemp
        · intro h hh
          simp only [List.head?] at hh
          simp at hh
          rw [← hh]
          refine hmem x ?_
          rw [hs]
          exact List.mem_cons_self x xs

/-- Witness for C7 on a one-entry (malformed, non-standard) cusp map. -/
theorem getHouseForLongitude_total_witness :
    (5 : Nat) ∈ ([((5 : Nat), (10 : ℚ))].map Prod.fst) :=
  (getHouseForLongitude_total 15 [((5 : Nat), (10 : ℚ))]).2 5 (by decide)

/-! ### Claim C1: the ascLeavesHouse trigger -/

/-- Rule with trigger `ascLeavesHouse 1`. -/
def ascRule : OrientationRule :=
  { id := "r1", trigger := .ascLeavesHouse 1, effect := .rotate 30 }

/-- Snapshot with the ASC at longitude 15 (house 1 of the even cusps). -/
def ascInHouse1Chart : ChartSnapshot :=
  { houseCusps := some evenCusps, angleLongitudes := some [(.ASC, 15)] }

/-- A handcrafted state whose `"ASC:1"` entry records house 2. -/
def mismatchState : OrientationRuntimeState :=
  { appliedRuleIds := [], previousHousePositions := some [("ASC:1", 2)] }

/-- Counterexample to C1 as stated: the rule is not yet applied, the ASC's
current house equals the configured house (1), the previously recorded
house under `"ASC:1"` is 2 (not the configured house) — yet the trigger
fires, through the source's first (entered-while-recorded-elsewhere)
branch. C1 claims it must not fire whenever the current house equals the
configured house. -/
theorem ruleTriggered_ascLeavesHouse_cex :
    ascRule.trigger = Trigger.ascLeavesHouse 1 ∧
    mismatchState.appliedRuleIds.contains ascRule.id = false ∧
    chartAngle ascInHouse1Chart .ASC = some 15 ∧
    ascInHouse1Chart.houseCusps = some evenCusps ∧
    getHouseForLongitude 15 evenCusps = some 1 ∧
    statePrev mismatchState (houseKey "ASC" 1) = some 2 ∧
    ruleTriggered ascRule ascInHouse1Chart mismatchState = true := by
  refine ⟨rfl, rfl, by decide, rfl, by decide, by decide, by decide⟩

/-- C1 (amended): with the ASC longitude and cusps present and the rule
not yet applied, the trigger fires iff either (a) the recorded house under
`"ASC:house"` is exactly `house` and the ASC's current house differs from
`house`, or (b) the ASC's current house equals `house` while a different
house is recorded under `"ASC:house"`. -/
theorem ruleTriggered_ascLeavesHouse_amended (rule : OrientationRule) (chart : ChartSnapshot)
    (state : OrientationRuntimeState) (house : Nat) (ascLon : ℚ) (cusps : List (Nat × ℚ))
    (htr : rule.trigger = .ascLeavesHouse house)
    (happ : state.appliedRuleIds.contains rule.id = false)
    (hasc : chartAngle chart .ASC = some ascLon)
    (hcusps : chart.houseCusps = some cusps) :
    ruleTriggered rule chart state = true ↔
      ((statePrev state (houseKey "ASC" house) = some house ∧
        getHouseForLongitude ascLon cusps ≠ some house) ∨
       (getHouseForLongitude ascLon cusps = some house ∧
        statePrev state (houseKey "ASC" house) ≠ none ∧
        statePrev state (houseKey "ASC" house) ≠ some house)) := by
  simp only [ruleTriggered, htr, hasc, hcusps, happ]
  by_cases hA : getHouseForLongitude ascLon cusps = some house ∧
      statePrev state (houseKey "ASC" house) ≠ none ∧
      statePrev state (houseKey "ASC" house) ≠ some house
  · simp [hA]
  · by_cases hB : statePrev state (houseKey "ASC" house) = some house ∧
        getHouseForLongitude ascLon cusps ≠ some house
    · simp [hA, hB, hB.1, hB.2]
    · simp only [if_neg hA]
      have hBmatch : ¬ (statePrev state (houseKey "ASC" house) = some house ∧
          getHouseForLongitude ascLon cusps ≠ some house) := hB
      simp [hBmatch, hA, hB]

/-- Snapshot with the ASC at longitude 45 (house 2 of the even cusps). -/
def ascInHouse2Chart : ChartSnapshot :=
  { houseCusps := some evenCusps, angleLongitudes := some [(.ASC, 45)] }

/-- State recording the ASC as previously in house 1. -/
def ascWasHouse1State : OrientationRuntimeState :=
  { appliedRuleIds := [], previousHousePositions := some [("ASC:1", 1)] }

/-- Witness for the amended C1: ASC recorded in house 1, now in house 2 —
the trigger fires. -/
theorem ruleTriggered_ascLeavesHouse_amended_witness :
    ruleTriggered ascRule ascInHouse2Chart ascWasHouse1State = true :=
  (ruleTriggered_ascLeavesHouse_amended ascRule ascInHouse2Chart ascWasHouse1State 1 45
    evenCusps rfl rfl (by decide) rfl).mpr (Or.inl ⟨by decide, by decide⟩)

/-! ### Claim C2: edge-triggered rules do not re-fire

The key invariant: once an edge-triggered rule has fired, the updated
runtime state blocks it — `ascLeavesHouse` through `appliedRuleIds`,
`planetCrossesHouse` through the recorded `` `${planet}:${house}` ``
position — and every later `applyRule` preserves the block, because every
tracking write stores a value equal to the house encoded in its own key. -/

/-- The state blocks the given edge-triggered rule from firing again. -/
def blockedFor (target : OrientationRule) (state : OrientationRuntimeState) : Prop :=
  match target.trigger with
  | .ascLeavesHouse _ => state.appliedRuleIds.contains target.id = true
  | .planetCrossesHouse planet house =>
    statePrev state (houseKey planet.render house) = some house
  | .planetCrossesAngle _ _ => False
  | .custom => False

/-- The state produced by `applyRule`, spelled out. -/
theorem applyRule_newState (rule : OrientationRule) (frame : ViewFrame)
    (locks : List LockRule) (chart : ChartSnapshot) (state : OrientationRuntimeState) :
    (applyRule rule frame locks chart state).newState =
      { appliedRuleIds := setAdd state.appliedRuleIds rule.id,
        previousHousePositions :=
          some (trackPositions chart ((state.previousHousePositions).getD [])) } := rfl

/-- A tracking write `key(x, h) ↦ h` cannot disturb a stored
`key(s, t) ↦ t` entry: if the keys collide then `h = t`. -/
theorem mapGet_write_preserve (m : List (String × Nat)) (s x : String) (t h : Nat)
    (hm : mapGet m (houseKey s t) = some t) :
    mapGet (mapSet m (houseKey x h) h) (houseKey s t) = some t := by
  rw [mapGet_mapSet]
  by_cases hk : houseKey s t = houseKey x h
  · rw [if_pos hk, houseKey_inj_house s x t h hk]
  · rw [if_neg hk]
    exact hm

theorem trackAsc_preserve (chart : ChartSnapshot) (cusps : List (Nat × ℚ))
    (m : List (String × Nat)) (s : String) (t : Nat)
    (hm : mapGet m (houseKey s t) = some t) :
    mapGet (trackAsc chart cusps m) (houseKey s t) = some t := by
  cases ha : chartAngle chart .ASC with
  | none => simpa [trackAsc, ha] using hm
  | some ascLon =>
    cases hh : getHouseForLongitude ascLon cusps with
    | none => simpa [trackAsc, ha, hh] using hm
    | some ascHouse =>
      simp only [trackAsc, ha, hh]
      exact mapGet_write_preserve m s "ASC" t ascHouse hm

theorem trackPlanet_preserve (cusps : List (Nat × ℚ)) (acc : List (String × Nat))
    (entry : ObjId × ℚ) (s : String) (t : Nat)
    (hm : mapGet acc (houseKey s t) = some t) :
    mapGet (trackPlanet cusps acc entry) (houseKey s t) = some t := by
  cases hh : getHouseForLongitude entry.2 cusps with
  | none => simpa [trackPlanet, hh] using hm
  | some house =>
    simp only [trackPlanet, hh]
    exact mapGet_write_preserve acc s entry.1.render t house hm

theorem trackFold_preserve (cusps : List (Nat × ℚ)) (l : List (ObjId × ℚ))
    (acc : List (String × Nat)) (s : String) (t : Nat)
    (hm : mapGet acc (houseKey s t) = some t) :
    mapGet (l.foldl (trackPlanet cusps) acc) (houseKey s t) = some t := by
  induction l generalizing acc with
  | nil => exact hm
  | cons entry rest ih =>
    exact ih (trackPlanet cusps acc entry) (trackPlanet_preserve cusps acc entry s t hm)

theorem trackFold_establish (cusps : List (Nat × ℚ)) (l : List (ObjId × ℚ))
    (acc : List (String × Nat)) (p : ObjId) (lon : ℚ) (t : Nat)
    (hmem : (p, lon) ∈ l) (hhouse : getHouseForLongitude lon cusps = some t) :
    mapGet (l.foldl (trackPlanet cusps) acc) (houseKey p.render t) = some t := by
  induction l generalizing acc with
  | nil => exact absurd hmem (List.not_mem_nil _)
  | cons entry rest ih =>
    rcases List.mem_cons.mp hmem with heq | hmem2
    · have hstep : mapGet (trackPlanet cusps acc entry) (houseKey p.render t) = some t := by
        rw [← heq]
        simp only [trackPlanet, hhouse]
        rw [mapGet_mapSet, if_pos rfl]
      exact trackFold_preserve cusps rest (trackPlanet cusps acc entry) p.render t hstep
    · exact ih (trackPlanet cusps acc entry) hmem2

theorem trackPositions_preserve (chart : ChartSnapshot) (m : List (String × Nat))
    (s : String) (t : Nat) (hm : mapGet m (houseKey s t) = some t) :
    mapGet (trackPositions chart m) (houseKey s t) = some t := by
  unfold trackPositions
  cases chart.houseCusps with
  | none => exact hm
  | some cusps =>
    cases chart.planetLongitudes with
    | none => exact trackAsc_preserve chart cusps m s t hm
    | some pl =>
      exact trackFold_preserve cusps pl (trackAsc chart cusps m) s t
        (trackAsc_preserve chart cusps m s t hm)

/-- Once a rule's state blocks it, `applyRule` (for any rule) keeps it
blocked. -/
theorem applyRule_blockedFor (target rule : OrientationRule) (frame : ViewFrame)
    (locks : List LockRule) (chart : ChartSnapshot) (state : OrientationRuntimeState)
    (hb : blockedFor target state) :
    blockedFor target (applyRule rule frame locks chart state).newState := by
  rw [applyRule_newState]
  cases htr : target.trigger with
  | ascLeavesHouse house =>
    simp only [blockedFor, htr] at hb ⊢
    exact setAdd_contains_mono state.appliedRuleIds rule.id target.id hb
  | planetCrossesHouse planet house =>
    simp only [blockedFor, htr] at hb ⊢
    unfold statePrev at hb
    cases hprev : state.previousHousePositions with
    | none =>
      rw [hprev] at hb
      exact absurd hb (by simp)
    | some m0 =>
      rw [hprev] at hb
      have hb2 : mapGet m0 (houseKey planet.render house) = some house := hb
      show mapGet (trackPositions chart ((Option.some m0).getD []))
        (houseKey planet.render house) = some house
      exact trackPositions_preserve chart m0 planet.render house hb2
  | planetCrossesAngle planet angle => simp only [blockedFor, htr] at hb
  | custom => simp only [blockedFor, htr] at hb

/-- An edge-triggered rule that fires is blocked in the state `applyRule`
returns for it. -/
theorem applyRule_establishes_blockedFor (rule : OrientationRule) (frame : ViewFrame)
    (locks : List LockRule) (chart : ChartSnapshot) (state : OrientationRuntimeState)
    (hedge : (∃ h, rule.trigger = .ascLeavesHouse h) ∨
      (∃ p h, rule.trigger = .planetCrossesHouse p h))
    (hfire : ruleTriggered rule chart state = true) :
    blockedFor rule (applyRule rule frame locks chart state).newState := by
  rw [applyRule_newState]
  rcases hedge with ⟨house, htr⟩ | ⟨planet, house, htr⟩
  · simp only [blockedFor, htr]
    exact setAdd_contains_self state.appliedRuleIds rule.id
  · simp only [blockedFor, htr]
    cases hp : chartPlanet chart planet with
    | none => simp [ruleTriggered, htr, hp] at hfire
    | some planetLon =>
      cases hc : chart.houseCusps with
      | none => simp [ruleTriggered, htr, hp, hc] at hfire
      | some cusps =>
        simp only [ruleTriggered, htr, hp, hc, decide_eq_true_iff] at hfire
        obtain ⟨hcur, hprevne⟩ := hfire
        have hpl : ∃ pl, chart.planetLongitudes = some pl ∧ mapGet pl planet = some planetLon := by
          unfold chartPlanet at hp
          cases hpl0 : chart.planetLongitudes with
          | none => rw [hpl0] at hp; simp at hp
          | some pl =>
            rw [hpl0] at hp
            exact ⟨pl, rfl, hp⟩
        obtain ⟨pl, hpl0, hget⟩ := hpl
        show mapGet (trackPositions chart ((state.previousHousePositions).getD []))
          (houseKey planet.render house) = some house
        unfold trackPositions
        rw [hc, hpl0]
        exact trackFold_establish cusps pl _ planet planetLon house
          (mapGet_mem pl planet planetLon hget) hcur

/-- A blocked edge-triggered rule does not fire. -/
theorem blockedFor_not_triggered (rule : OrientationRule) (chart : ChartSnapshot)
    (state : OrientationRuntimeState) (hb : blockedFor rule state) :
    ruleTriggered rule chart state = false := by
  cases htr : rule.trigger with
  | ascLeavesHouse house =>
    simp only [blockedFor, htr] at hb
    have hbm : rule.id ∈ state.appliedRuleIds := by simpa using hb
    cases ha : chartAngle chart .ASC with
    | none => simp [ruleTriggered, htr, ha]
    | some ascLon =>
      cases hc : chart.houseCusps with
      | none => simp [ruleTriggered, htr, ha, hc]
      | some cusps => simp [ruleTriggered, htr, ha, hc, hb, hbm]
  | planetCrossesHouse planet house =>
    simp only [blockedFor, htr] at hb
    cases hp : chartPlanet chart planet with
    | none => simp [ruleTriggered, htr, hp]
    | some planetLon =>
      cases hc : chart.houseCusps with
      | none => simp [ruleTriggered, htr, hp, hc]
      | some cusps => simp [ruleTriggered, htr, hp, hc, hb]
  | planetCrossesAngle planet angle => simp only [blockedFor, htr] at hb
  | custom => simp only [blockedFor, htr] at hb

/-- A blocked rule never fires anywhere along the rule walk, and stays
blocked at its end. -/
theorem firedDuring_false_of_blocked (chart : ChartSnapshot) (locks : List LockRule)
    (target : OrientationRule) (rules : List OrientationRule) (frame : ViewFrame)
    (state : OrientationRuntimeState) (hb : blockedFor target state) :
    firedDuring chart locks target rules frame state = false := by
  induction rules generalizing frame state with
  | nil => rfl
  | cons rule rest ih =>
    by_cases ht : ruleTriggered rule chart state = true
    · have hne : decide (rule = target) = false := by
        by_cases heq : rule = target
        · subst heq
          rw [blockedFor_not_triggered rule chart state hb] at ht
          exact absurd ht (by simp)
        · simp [heq]
      simp only [firedDuring, ht, if_true, hne, Bool.false_or]
      exact ih (applyRule rule frame locks chart state).frame
        (applyRule rule frame locks chart state).newState
        (applyRule_blockedFor target rule frame locks chart state hb)
    · have ht2 : ruleTriggered rule chart state = false := by
        cases hval : ruleTriggered rule chart state with
        | true => exact absurd hval ht
        | false => rfl
      simp only [firedDuring, ht2, Bool.false_eq_true, if_false]
      exact ih frame state hb

/-- A blocked rule stays blocked through the whole rule walk. -/
theorem runRules_blockedFor (chart : ChartSnapshot) (locks : List LockRule)
    (target : OrientationRule) (rules : List OrientationRule) (frame : ViewFrame)
    (extraLocks : List LockRule) (state : OrientationRuntimeState)
    (hb : blockedFor target state) :
    blockedFor target (runRules chart locks rules frame extraLocks state).2.2 := by
  induction rules generalizing frame extraLocks state with
  | nil => exact hb
  | cons rule rest ih =>
    by_cases ht : ruleTriggered rule chart state = true
    · simp only [runRules, ht, if_true]
      exact ih _ _ _ (applyRule_blockedFor target rule frame locks chart state hb)
    · have ht2 : ruleTriggered rule chart state = false := by
        cases hval : ruleTriggered rule chart state with
        | true => exact absurd hval ht
        | false => rfl
      simp only [runRules, ht2, Bool.false_eq_true, if_false]
      exact ih frame extraLocks state hb

/-- If an edge-triggered rule fired during the walk, the walk's final
state blocks it. -/
theorem runRules_blockedFor_of_fired (chart : ChartSnapshot) (locks : List LockRule)
    (target : OrientationRule)
    (hedge : (∃ h, target.trigger = .ascLeavesHouse h) ∨
      (∃ p h, target.trigger = .planetCrossesHouse p h))
    (rules : List OrientationRule) (frame : ViewFrame) (extraLocks : List LockRule)
    (state : OrientationRuntimeState)
    (hf : firedDuring chart locks target rules frame state = true) :
    blockedFor target (runRules chart locks rules frame extraLocks state).2.2 := by
  induction rules generalizing frame extraLocks state with
  | nil => exact absurd hf (by simp [firedDuring])
  | cons rule rest ih =>
    by_cases ht : ruleTriggered rule chart state = true
    · simp only [firedDuring, ht, if_true, Bool.or_eq_true, decide_eq_true_iff] at hf
      simp only [runRules, ht, if_true]
      rcases hf with heq | hrest
      · subst heq
        exact runRules_blockedFor chart locks rule rest _ _ _
          (applyRule_establishes_blockedFor rule frame locks chart state hedge ht)
      · exact ih _ _ _ hrest
    · have ht2 : ruleTriggered rule chart state = false := by
        cases hval : ruleTriggered rule chart state with
        | true => exact absurd hval ht
        | false => rfl
      simp only [firedDuring, ht2, Bool.false_eq_true, if_false] at hf
      simp only [runRules, ht2, Bool.false_eq_true, if_false]
      exact ih frame extraLocks state hf

/-- C2: if an edge-triggered rule (`ascLeavesHouse` or
`planetCrossesHouse`) fired during an evaluation of
`evalOrientationProgram`, re-evaluating with the identical snapshot and
the returned state as previous state does not fire that rule again. -/
theorem evalOrientationProgram_no_refire (program : OrientationProgram)
    (chart : ChartSnapshot) (previousState : Option OrientationRuntimeState)
    (target : OrientationRule)
    (hedge : (∃ h, target.trigger = .ascLeavesHouse h) ∨
      (∃ p h, target.trigger = .planetCrossesHouse p h))
    (hfired : firedDuring chart (program.locks.getD []) target (program.rules.getD [])
        program.baseFrame (previousState.getD freshState) = true) :
    firedDuring chart (program.locks.getD []) target (program.rules.getD [])
        program.baseFrame (evalOrientationProgram program chart previousState).state
      = false := by
  have hstate : (evalOrientationProgram program chart previousState).state
      = (runRules chart (program.locks.getD []) (program.rules.getD [])
          program.baseFrame [] (previousState.getD freshState)).2.2 := rfl
  rw [hstate]
  exact firedDuring_false_of_blocked chart (program.locks.getD []) target
    (program.rules.getD []) program.baseFrame _
    (runRules_blockedFor_of_fired chart (program.locks.getD []) target hedge
      (program.rules.getD []) program.baseFrame [] (previousState.getD freshState) hfired)

/-- Rule that fires when mars enters house 1. -/
def crossRule : OrientationRule :=
  { id := "r2", trigger := .planetCrossesHouse (.str "mars") 1, effect := .rotate 30 }

/-- One-rule program for the C2 witness. -/
def crossProgram : OrientationProgram :=
  { baseFrame := unresolvableFrame, rules := some [crossRule] }

/-- Snapshot with mars at longitude 15 (house 1 of the even cusps). -/
def crossChart : ChartSnapshot :=
  { planetLongitudes := some [(.str "mars", 15)], houseCusps := some evenCusps }

/-- Witness for C2: mars-enters-house-1 fires on the first evaluation and
does not fire when re-evaluating from the returned state. -/
theorem evalOrientationProgram_no_refire_witness :
    firedDuring crossChart (crossProgram.locks.getD []) crossRule
        (crossProgram.rules.getD []) crossProgram.baseFrame
        (evalOrientationProgram crossProgram crossChart none).state
      = false :=
  evalOrientationProgram_no_refire crossProgram crossChart none crossRule
    (Or.inr ⟨.str "mars", 1, rfl⟩) (by decide)

end ViewFrameSpec
